import Mathlib

/-!
Verification of the glouton monitoring agent's core data plane against its
specification.  Each Go function under scrutiny is shallowly embedded as an
executable Lean definition; machine time is modelled as `Nat` seconds with `0`
playing the role of Go's zero `time.Time`, and durations as `Int` where the Go
code uses `time.Duration`.  Definitions come first, theorems follow.
-/

namespace Glouton

/-! ### Threshold evaluator (src/threshold/threshold.go) -/

/-- Modelled from the spec: the `glouton/types` package (not under `src/`)
defines the tagged status variants `ok|warning|critical|unknown|unset`, with
`unset` as the Go zero value (the default for a fresh map entry). -/
inductive Status where
  | unset
  | ok
  | warning
  | critical
  | unknown
deriving DecidableEq, Repr

/-- Embeds `statusState` of `src/threshold/threshold.go`: current status plus
the `CriticalSince` / `WarningSince` / `LastUpdate` timestamps (seconds, `0` =
Go zero time). -/
structure StatusState where
  currentStatus : Status
  criticalSince : Nat
  warningSince  : Nat
  lastUpdate    : Nat
deriving DecidableEq, Repr

/-- The zero value of `statusState`, i.e. what `p.registry.states[key]` yields
for a key never seen before. -/
def initialStatusState : StatusState :=
  { currentStatus := Status.unset, criticalSince := 0, warningSince := 0, lastUpdate := 0 }

/-- The final `switch` of `statusState.Update` (threshold.go lines 166-179):
decides the emitted current status from the candidate current status, the raw
status and the measured soft-period durations. -/
def decideStatus (cur newStatus : Status) (period criticalDuration warningDuration : Int) :
    Status :=
  if period = 0 then newStatus
  else if criticalDuration ≥ period then Status.critical
  else if warningDuration ≥ period then Status.warning
  else if cur = Status.critical ∧ newStatus = Status.warning then Status.warning
  else if newStatus = Status.ok then Status.ok
  else cur

/-- Embeds `statusState.Update` (threshold.go lines 124-184).  An unset current
status adopts the raw status; `*Since` timestamps lying in the future are
zeroed; the raw status sets/clears the timestamps and measures durations; the
final decision is `decideStatus`.  `LastUpdate` is set to the update time. -/
def StatusState.update (s : StatusState) (newStatus : Status) (period : Int) (now : Nat) :
    StatusState :=
  let cur := if s.currentStatus = Status.unset then newStatus else s.currentStatus
  let cS0 := if now < s.criticalSince then 0 else s.criticalSince
  let wS0 := if now < s.warningSince then 0 else s.warningSince
  match newStatus with
  | Status.critical =>
      let cS := if cS0 = 0 then now else cS0
      let wS := if wS0 = 0 then now else wS0
      { currentStatus := decideStatus cur newStatus period ((now : Int) - cS) ((now : Int) - wS)
        criticalSince := cS, warningSince := wS, lastUpdate := now }
  | Status.warning =>
      let wS := if wS0 = 0 then now else wS0
      { currentStatus := decideStatus cur newStatus period 0 ((now : Int) - wS)
        criticalSince := 0, warningSince := wS, lastUpdate := now }
  | _ =>
      { currentStatus := decideStatus cur newStatus period 0 0
        criticalSince := 0, warningSince := 0, lastUpdate := now }

/-- The sequence of current statuses emitted for one `(name, item)` key by
`pusher.addPointWithThreshold` when fed a stream of raw statuses with
timestamps: each point folds `statusState.Update` over the stored state
(starting from the zero value) and emits `newState.CurrentStatus`. -/
def emittedStatuses (period : Int) (stream : List (Status × Nat)) : List Status :=
  (stream.foldl
    (fun acc u =>
      let s := acc.1.update u.1 period u.2
      (s, acc.2 ++ [s.currentStatus]))
    (initialStatusState, ([] : List Status))).2

/-- Threshold states reachable by soft-period updates from the zero state:
each update feeds a raw status produced by `Threshold.CurrentStatus`
(`ok`, `warning` or `critical`), a nonnegative soft period, and a positive
wall-clock time (`0` is Go's zero `time.Time`, never a real instant). -/
inductive ReachableState : StatusState → Prop where
  | init : ReachableState initialStatusState
  | step {s : StatusState} (raw : Status) (period : Int) (now : Nat) :
      ReachableState s →
      (raw = Status.ok ∨ raw = Status.warning ∨ raw = Status.critical) →
      0 ≤ period → 0 < now →
      ReachableState (s.update raw period now)

/-- A `float64` threshold limit or metric value: either NaN (`unset`) or a
finite value, embedded as a rational.  IEEE comparisons against NaN are always
false, which is exactly how `!math.IsNaN(limit) && value < limit` behaves in
`Threshold.CurrentStatus`. -/
inductive FVal where
  | nan
  | val (q : ℚ)
deriving DecidableEq, Repr

/-- IEEE strict less-than: false whenever either side is NaN. -/
def FVal.lt : FVal → FVal → Bool
  | FVal.val a, FVal.val b => decide (a < b)
  | _, _ => false

/-- Embeds the `Threshold` struct of threshold.go (four float64 limits, NaN =
unset). -/
structure Threshold where
  lowCritical  : FVal
  lowWarning   : FVal
  highWarning  : FVal
  highCritical : FVal
deriving DecidableEq, Repr

/-- Embeds `Threshold.CurrentStatus` (threshold.go lines 284-302): the checks
run in source order `lowCritical`, `lowWarning`, `highCritical`,
`highWarning`, returning at the first match, together with the exceeded
limit. -/
def Threshold.currentStatus (t : Threshold) (value : FVal) : Status × FVal :=
  if FVal.lt value t.lowCritical then (Status.critical, t.lowCritical)
  else if FVal.lt value t.lowWarning then (Status.warning, t.lowWarning)
  else if FVal.lt t.highCritical value then (Status.critical, t.highCritical)
  else if FVal.lt t.highWarning value then (Status.warning, t.highWarning)
  else (Status.ok, FVal.nan)

/-- The raw status as the spec sentence words it: critical if
`value < lowCritical` or `value > highCritical`, else warning if
`value < lowWarning` or `value > highWarning`, else ok. -/
def specRawStatus (t : Threshold) (value : FVal) : Status :=
  if FVal.lt value t.lowCritical || FVal.lt t.highCritical value then Status.critical
  else if FVal.lt value t.lowWarning || FVal.lt t.highWarning value then Status.warning
  else Status.ok

/-! ### Threshold registry persistence (`Registry.Run`, `Registry.run`,
`New` in src/threshold/threshold.go) -/

/-- Embeds `MetricNameItem` of threshold.go. -/
structure MetricNameItem where
  name : String
  item : String
deriving DecidableEq, Repr

/-- The fixed cache key `statusCacheKey` of threshold.go. -/
def statusCacheKey : String := "CacheStatusState"

/-- Embeds the `Registry.Run` loop of threshold.go (lines 331-377) over a
trace of wake-ups.  Each wake-up is `(shutdown, now)`: the `select` either saw
`ctx.Done()` (`shutdown = true`, which also ends the loop) or the one-minute
timer fired.  `save` is set on shutdown or when more than 60 minutes passed
since `lastSave`; `Registry.run` always evicts entries whose `LastUpdate` is
older than 60 minutes and, when `save` is set, calls `state.Set` with the
fixed cache key and the surviving entries.  The result is the log of `Set`
calls `(now, key, serialized list)`. -/
def registryRunLoop :
    List (Bool × Nat) → List (MetricNameItem × StatusState) → Nat →
      List (Nat × String × List (MetricNameItem × StatusState))
  | [], _, _ => []
  | (shutdown, now) :: rest, states, lastSave =>
      let save := shutdown || decide (3600 < now - lastSave)
      let kept := states.filter (fun kv => !(decide (3600 < now - kv.2.lastUpdate)))
      let tail :=
        if shutdown then []
        else registryRunLoop rest kept (if save then now else lastSave)
      if save then (now, statusCacheKey, kept) :: tail else tail

/-- Embeds `New` of threshold.go (lines 52-69): the states map starts empty
and the persisted `jsonList` is applied to it only inside the
`if err != nil` branch, i.e. only when `state.Get` returned a non-nil
error. -/
def registryNew (getError : Option String)
    (jsonList : List (MetricNameItem × StatusState)) :
    MetricNameItem → Option StatusState :=
  let empty : MetricNameItem → Option StatusState := fun _ => none
  if getError.isSome then
    jsonList.foldl (fun m kv => Function.update m kv.1 (some kv.2)) empty
  else empty

/-! ### Netstat inventory (`addAddress`, src/unnamed/part_002) -/

/-- Embeds the `listenAddress` struct of the netstat inventory: `network`,
`address` string and port.  `String()` renders non-unix addresses as
`address:port` and unix addresses as the bare address. -/
structure listenAddress where
  network : String
  address : String
  port : Nat
deriving DecidableEq, Repr

/-- Model of Go's `net.SplitHostPort` applied to `address ++ ":" ++ port` for
the non-bracketed address strings the netstat parser produces: the split fails
exactly when the host part contains a colon (an unbracketed IPv6 address) or a
square bracket.  (Stated over the character list so it evaluates by
`decide`.) -/
def splitHostPortFails (a : String) : Bool :=
  a.toList.contains ':' || a.toList.contains '[' || a.toList.contains ']'

/-- The scan loop of `addAddress`: walks the existing addresses looking for an
entry with the same network and port.  `none` models the early `return
addresses` on a `SplitHostPort`/`ParseInt` failure; `some (dup, l)` returns
whether a duplicate was found together with the (possibly in-place updated)
list: a duplicate entry is replaced by the new address exactly when the new
address starts with `127.`. -/
def addAddressLoop : List listenAddress → listenAddress → Option (Bool × List listenAddress)
  | [], _ => some (false, [])
  | v :: rest, newAddr =>
    if v.network ≠ newAddr.network then
      (addAddressLoop rest newAddr).map (fun p => (p.1, v :: p.2))
    else if splitHostPortFails v.address then none
    else if v.port = newAddr.port then
      some (true, (if newAddr.address.startsWith "127." then newAddr else v) :: rest)
    else
      (addAddressLoop rest newAddr).map (fun p => (p.1, v :: p.2))

/-- The IPv6 projection at the top of `addAddress`: for `tcp6`/`udp6`, `::`
maps to `0.0.0.0`, `::1` to `127.0.0.1`, any remaining IPv6 address (still
containing a colon) is dropped (`none`), and the network collapses to its
first three characters; other networks pass through unchanged. -/
def projectAddress (newAddr : listenAddress) : Option listenAddress :=
  if newAddr.network = "tcp6" ∨ newAddr.network = "udp6" then
    let a1 := if newAddr.address = "::" then "0.0.0.0" else newAddr.address
    let a2 := if a1 = "::1" then "127.0.0.1" else a1
    if a2.toList.contains ':' then none
    else some { network := newAddr.network.take 3, address := a2, port := newAddr.port }
  else some newAddr

/-- Embeds `addAddress` (part_002 lines 561-606).  Unix addresses skip
deduplication entirely and are always appended.  Otherwise the IPv6 projection
runs, then the scan loop; on a scan failure the original list is returned, on
a duplicate the in-place updated list, otherwise the projected address is
appended. -/
def addAddress (addresses : List listenAddress) (newAddr : listenAddress) :
    List listenAddress :=
  if newAddr.network = "unix" then addresses ++ [newAddr]
  else
    match projectAddress newAddr with
    | none => addresses
    | some na =>
      match addAddressLoop addresses na with
      | none => addresses
      | some (true, updated) => updated
      | some (false, _) => addresses ++ [na]

/-- Address lists built by any sequence of `addAddress` insertions starting
from the empty per-PID set. -/
inductive NetstatReachable : List listenAddress → Prop where
  | nil : NetstatReachable []
  | step (l : List listenAddress) (a : listenAddress) :
      NetstatReachable l → NetstatReachable (addAddress l a)

/-- No two non-unix addresses of the set share `(network, port)`. -/
def noDupNonUnix (l : List listenAddress) : Prop :=
  l.Pairwise (fun a b => a.network = b.network → a.network ≠ "unix" → a.port ≠ b.port)

/-- Concrete netstat data: a plain tcp listener on port 80. -/
def tcpAddr80 : listenAddress := { network := "tcp", address := "10.0.0.1", port := 80 }

/-- Concrete netstat data: a plain tcp listener on port 443. -/
def tcpAddr443 : listenAddress := { network := "tcp", address := "192.168.0.5", port := 443 }

/-- Concrete netstat data: a loopback tcp listener on port 443. -/
def tcpLoopback443 : listenAddress := { network := "tcp", address := "127.0.0.1", port := 443 }

/-! ### Discovery engine (`Discovery.updateDiscovery`, src/discovery/discovery.go) -/

/-- Embeds the `nameContainer` key of the discovery engine. -/
structure nameContainer where
  name : String
  containerID : String
deriving DecidableEq, Repr

/-- Modelled from the spec: the discovery `Service` record — identity
`(Name, ContainerID)`, listen addresses, primary IP, executable path, the
`Active` boolean and the `hasNetstatInfo` flag.  Its defining file is not
under `src/`; the fields are the ones discovery.go reads and writes, with
`exePath` standing for the fields `updateDiscovery` never touches. -/
structure Service where
  name : String
  containerID : String
  listenAddresses : List listenAddress
  ipAddress : String
  exePath : String
  active : Bool
  hasNetstatInfo : Bool
deriving DecidableEq, Repr

/-- The `(Name, ContainerID)` key of a service. -/
def Service.key (s : Service) : nameContainer := ⟨s.name, s.containerID⟩

/-- The first loop of `updateDiscovery` (lines 150-154): copy every previous
entry with `Active` forced to false. -/
def deactivateAll (m : nameContainer → Option Service) : nameContainer → Option Service :=
  fun k => (m k).map (fun s => { s with active := false })

/-- The body of the second loop of `updateDiscovery` (lines 161-167): when a
previous entry had netstat info and the observed service lacks it, carry over
listen addresses, primary IP and the flag. -/
def mergeObservedService (previousService service : Service) : Service :=
  if previousService.hasNetstatInfo && !service.hasNetstatInfo then
    { service with
        listenAddresses := previousService.listenAddresses
        ipAddress := previousService.ipAddress
        hasNetstatInfo := previousService.hasNetstatInfo }
  else service

/-- One iteration of the second loop of `updateDiscovery`: write the observed
service back under its key, merging netstat info from the entry currently in
the map (a missing entry writes the service as observed). -/
def observeService (m : nameContainer → Option Service) (service : Service) :
    nameContainer → Option Service :=
  let s' := match m service.key with
    | some previousService => mergeObservedService previousService service
    | none => service
  Function.update m service.key (some s')

/-- Embeds `Discovery.updateDiscovery` (discovery.go lines 144-173): start
from the deactivated copy of the previous map, then write back every observed
service under its key, merging netstat info from the entry currently in the
map. -/
def updateDiscovery (prev : nameContainer → Option Service) (r : List Service) :
    nameContainer → Option Service :=
  r.foldl observeService (deactivateAll prev)

/-- Concrete data for exercising the discovery carry-over: the previous
cycle's memcached entry, which had netstat info. -/
def memcachedPrevService : Service :=
  { name := "memcached", containerID := ""
    listenAddresses := [{ network := "tcp", address := "127.0.0.1", port := 11211 }]
    ipAddress := "127.0.0.1", exePath := "/usr/bin/memcached"
    active := true, hasNetstatInfo := true }

/-- The same service as observed on the next cycle, without netstat info. -/
def memcachedObservedService : Service :=
  { name := "memcached", containerID := "", listenAddresses := []
    ipAddress := "", exePath := "/usr/bin/memcached"
    active := true, hasNetstatInfo := false }

/-- The previous service map holding only the memcached entry. -/
def memcachedPrevMap : nameContainer → Option Service :=
  fun k => if k = ⟨"memcached", ""⟩ then some memcachedPrevService else none

/-! ### Metric registry pushed points (src/prometheus/registry/registry.go) -/

/-- Embeds `types.MetricPoint` as far as the push registry consumes it: the
label set (carried sorted by name), timestamp and value. -/
structure MetricPoint where
  labels : List (String × String)
  time : Nat
  value : ℚ
deriving DecidableEq, Repr

/-- Modelled from the spec: `types.LabelsToText` (not under `src/`) renders a
label set as its text form; points are keyed by it. -/
def labelsToText (labels : List (String × String)) : String :=
  String.intercalate "," (labels.map (fun kv => kv.1 ++ "=" ++ kv.2))

/-- State of the push side of the registry.  Go keeps two maps keyed by the
same label-set text (`pushedPoints` and `pushedPointsExpiration`); they are
modelled as a single association list of `(key, point, expiration)`. -/
structure RegistryPushState where
  pushedPoints : List (String × MetricPoint × Nat)
  lastPushedPointsCleanup : Nat
deriving DecidableEq, Repr

/-- Map-style insertion into the association list: replace the entry with the
given key, or append a fresh one. -/
def upsertPoint (l : List (String × MetricPoint × Nat)) (k : String) (p : MetricPoint)
    (e : Nat) : List (String × MetricPoint × Nat) :=
  if l.any (fun kv => kv.1 = k) then
    l.map (fun kv => if kv.1 = k then (k, p, e) else kv)
  else l ++ [(k, p, e)]

/-- Embeds `Registry.pushPoint` (registry.go lines 275-307): each point is
stored under its label-set text with expiration `now + ttl`; then, if more
than 5 minutes (300 s) passed since the last cleanup, entries whose expiration
has passed are swept and the cleanup clock resets. -/
def pushPoint (st : RegistryPushState) (points : List MetricPoint) (ttl : Nat) (now : Nat) :
    RegistryPushState :=
  let deadline := now + ttl
  let entries := points.foldl
    (fun acc p => upsertPoint acc (labelsToText p.labels) p deadline) st.pushedPoints
  if 300 < now - st.lastPushedPointsCleanup then
    { pushedPoints := entries.filter (fun kv => !(decide (kv.2.2 < now)))
      lastPushedPointsCleanup := now }
  else
    { pushedPoints := entries, lastPushedPointsCleanup := st.lastPushedPointsCleanup }

/-- Embeds `pushCollector.Collect` (registry.go lines 374-404), the part of
`Gather()` serving pushed points: entries whose expiration has passed are
deleted, the remaining points are emitted, and the cleanup clock is set to
`now`. -/
def pushCollect (st : RegistryPushState) (now : Nat) :
    List MetricPoint × RegistryPushState :=
  let kept := st.pushedPoints.filter (fun kv => !(decide (kv.2.2 < now)))
  (kept.map (fun kv => kv.2.1),
   { pushedPoints := kept, lastPushedPointsCleanup := now })

/-! ### Synchronizer (src/unnamed/part_006) -/

/-- Modelled from the spec: the disable reasons of `types.DisableReason` (not
under `src/`). -/
inductive DisableReason where
  | tooManyErrors
  | duplicatedAgent
  | agentTooOld
  | authenticationError
  | maintenance
deriving DecidableEq, Repr

/-- The disablement state of the synchronizer: the `(disabledUntil,
disableReason)` pair guarded by its mutex. -/
structure Synchronizer where
  disabledUntil : Nat
  disableReason : DisableReason
deriving DecidableEq, Repr

/-- Embeds the unexported `Synchronizer.disable` (part_006 lines 357-364): the
pair is overwritten when `force` is set or when the stored deadline is
strictly before the new one. -/
def Synchronizer.disable (s : Synchronizer) (untilT : Nat) (reason : DisableReason)
    (force : Bool) : Synchronizer :=
  if force || decide (s.disabledUntil < untilT) then
    { disabledUntil := untilT, disableReason := reason }
  else s

/-- Embeds the exported `Synchronizer.Disable` (part_006 lines 353-355): it
always calls `disable` with `force = true`. -/
def Synchronizer.Disable (s : Synchronizer) (untilT : Nat)
    (reason : DisableReason) : Synchronizer :=
  s.disable untilT reason true

/-- The alphabet of `generatePassword` (part_006 line 585), exactly as the Go
source writes it. -/
def passwordLetters : List Char :=
  "abcdefghjkmnpqrstuvwxyzABCDEFGHJKLMNPQRSTUVWXYZ23456789".toList

/-- The letter-drawing loop of `generatePassword`: one index per position, in
order.  `draws i = some n` models a successful `cryptoRand.Int` draw (always
below the alphabet length); `draws i = none` models an entropy failure — there
`cryptoRand.Int` returns a nil `*big.Int` and the source calls `bigN.Int64()`
before checking `err`, so the whole call panics (`none`): the `rand.Intn`
branch guarded by `if err != nil` is unreachable dead code. -/
def passwordRunes :
    List Nat → (Nat → Option (Fin passwordLetters.length)) → Option (List Char)
  | [], _ => some []
  | i :: rest, draws =>
      match draws i with
      | none => none
      | some n =>
          match passwordRunes rest draws with
          | none => none
          | some cs => some (passwordLetters.get n :: cs)

/-- Embeds `generatePassword` (part_006 lines 584-596): the string of drawn
letters when every entropy draw succeeds, `none` (a panic) as soon as any
draw fails. -/
def generatePassword (length : Nat) (draws : Nat → Option (Fin passwordLetters.length)) :
    Option String :=
  (passwordRunes (List.range length) draws).map String.mk

/-! ## Theorems -/

/-- C1 counterexample: for a fresh key with soft period 300 s, the raw-status
stream `[critical, warning]` (both at the same instant) emits
`[critical, warning]`, not `[ok, warning]` as claimed: an unset state adopts
the first raw status immediately. -/
theorem c1_soft_period_counterexample :
    emittedStatuses 300 [(Status.critical, 1000), (Status.warning, 1000)]
      ≠ [Status.ok, Status.warning] := by decide

/-- C1 (amended): with soft period 300 s and any positive base time `t0`, the
raw stream `[ok, critical, critical, critical]` at offsets `[0, 0, 150, 310]`
emits `[ok, ok, ok, critical]`; the raw stream `[critical, warning]` on a fresh
key emits `[critical, warning]` — the first raw status of a fresh (unset) state
is adopted immediately, and the warning is an immediate downgrade. -/
theorem c1_soft_period_scenarios (t0 : Nat) (ht : 0 < t0) :
    emittedStatuses 300
        [(Status.ok, t0), (Status.critical, t0),
         (Status.critical, t0 + 150), (Status.critical, t0 + 310)]
      = [Status.ok, Status.ok, Status.ok, Status.critical]
    ∧ emittedStatuses 300 [(Status.critical, t0), (Status.warning, t0)]
      = [Status.critical, Status.warning] := by
  have hne : t0 ≠ 0 := by omega
  have h1 : initialStatusState.update Status.ok 300 t0
      = { currentStatus := Status.ok, criticalSince := 0, warningSince := 0, lastUpdate := t0 } := by
    simp [StatusState.update, initialStatusState, decideStatus]
  have h2 : (StatusState.update
        { currentStatus := Status.ok, criticalSince := 0, warningSince := 0, lastUpdate := t0 }
        Status.critical 300 t0)
      = { currentStatus := Status.ok, criticalSince := t0, warningSince := t0, lastUpdate := t0 } := by
    simp [StatusState.update, decideStatus]
  have h3 : (StatusState.update
        { currentStatus := Status.ok, criticalSince := t0, warningSince := t0, lastUpdate := t0 }
        Status.critical 300 (t0 + 150))
      = { currentStatus := Status.ok, criticalSince := t0, warningSince := t0,
          lastUpdate := t0 + 150 } := by
    have hlt : ¬ (t0 + 150 < t0) := by omega
    have hdur : ((t0 + 150 : Nat) : Int) - (t0 : Nat) = 150 := by push_cast; ring
    simp [StatusState.update, decideStatus, hlt, hne, hdur]
  have h4 : (StatusState.update
        { currentStatus := Status.ok, criticalSince := t0, warningSince := t0,
          lastUpdate := t0 + 150 }
        Status.critical 300 (t0 + 310))
      = { currentStatus := Status.critical, criticalSince := t0, warningSince := t0,
          lastUpdate := t0 + 310 } := by
    have hlt : ¬ (t0 + 310 < t0) := by omega
    have hdur : ((t0 + 310 : Nat) : Int) - (t0 : Nat) = 310 := by push_cast; ring
    simp [StatusState.update, decideStatus, hlt, hne, hdur]
  have g1 : initialStatusState.update Status.critical 300 t0
      = { currentStatus := Status.critical, criticalSince := t0, warningSince := t0,
          lastUpdate := t0 } := by
    simp [StatusState.update, initialStatusState, decideStatus]
  have g2 : (StatusState.update
        { currentStatus := Status.critical, criticalSince := t0, warningSince := t0,
          lastUpdate := t0 }
        Status.warning 300 t0)
      = { currentStatus := Status.warning, criticalSince := 0, warningSince := t0,
          lastUpdate := t0 } := by
    simp [StatusState.update, decideStatus, hne]
  constructor
  · simp [emittedStatuses, h1, h2, h3, h4]
  · simp [emittedStatuses, g1, g2]

/-- Witness for C1 (amended) at base time 1000. -/
theorem c1_soft_period_scenarios_witness :
    emittedStatuses 300
        [(Status.ok, 1000), (Status.critical, 1000),
         (Status.critical, 1000 + 150), (Status.critical, 1000 + 310)]
      = [Status.ok, Status.ok, Status.ok, Status.critical]
    ∧ emittedStatuses 300 [(Status.critical, 1000), (Status.warning, 1000)]
      = [Status.critical, Status.warning] :=
  c1_soft_period_scenarios 1000 (by norm_num)

lemma decideStatus_warning_ne_critical (cur : Status) (period wd : Int) (hper : 0 ≤ period) :
    decideStatus cur Status.warning period 0 wd ≠ Status.critical := by
  unfold decideStatus
  split_ifs with h1 h2 h3 h4 h5 <;> simp_all
  omega

lemma update_critical_since (s : StatusState) (period : Int) (now : Nat) (hnow : 0 < now)
    (hinv : s.criticalSince ≠ 0 → s.warningSince ≠ 0 ∧ s.warningSince ≤ s.criticalSince) :
    (s.update Status.critical period now).warningSince ≠ 0 ∧
      (s.update Status.critical period now).warningSince
        ≤ (s.update Status.critical period now).criticalSince := by
  simp only [StatusState.update]
  by_cases hc : s.criticalSince = 0
  · simp only [hc]
    split_ifs <;> omega
  · obtain ⟨hw, hwc⟩ := hinv hc
    split_ifs <;> omega

/-- C3 counterexample: the claimed invariant fails on reachable states — after
`ok` then a soft (not yet period-long) `critical`, the current status is still
`ok` while `criticalSince` and `warningSince` hold the critical timestamp. -/
theorem c3_invariant_counterexample :
    ¬ (∀ s : StatusState, ReachableState s →
        (s.currentStatus = Status.ok → s.warningSince = 0 ∧ s.criticalSince = 0) ∧
        (s.currentStatus = Status.warning → s.criticalSince = 0) ∧
        (s.currentStatus = Status.critical → s.warningSince ≤ s.criticalSince)) := by
  intro h
  have hreach :
      ReachableState ((initialStatusState.update Status.ok 300 1).update Status.critical 300 2) :=
    ReachableState.step Status.critical 300 2
      (ReachableState.step Status.ok 300 1 ReachableState.init (Or.inl rfl) (by norm_num)
        (by norm_num))
      (Or.inr (Or.inr rfl)) (by norm_num) (by norm_num)
  have hok := (h _ hreach).1
  have hs : (initialStatusState.update Status.ok 300 1).update Status.critical 300 2
      = { currentStatus := Status.ok, criticalSince := 2, warningSince := 2, lastUpdate := 2 } := by
    decide
  rw [hs] at hok
  simp at hok

/-- C3 (amended): for every reachable threshold state, if `criticalSince` is
nonzero then `warningSince` is nonzero and `warningSince ≤ criticalSince`; in
particular when the current status is `critical`, `warningSince ≤
criticalSince` holds.  The `ok`/`warning` clauses of the original claim do not
hold: soft states keep their `*Since` timestamps while the emitted status stays
at the milder value. -/
theorem c3_since_invariant (s : StatusState) (hs : ReachableState s) :
    (s.criticalSince ≠ 0 → s.warningSince ≠ 0 ∧ s.warningSince ≤ s.criticalSince) ∧
      (s.currentStatus = Status.critical → s.warningSince ≤ s.criticalSince) := by
  induction hs with
  | init => simp [initialStatusState]
  | step raw period now hprev hraw hper hnow ih =>
    rcases hraw with hraw | hraw | hraw
    · subst hraw
      constructor
      · intro hc
        exfalso
        simp [StatusState.update] at hc
      · intro _
        simp [StatusState.update]
    · subst hraw
      constructor
      · intro hc
        exfalso
        simp [StatusState.update] at hc
      · intro hcur
        simp only [StatusState.update] at hcur
        exact absurd hcur (decideStatus_warning_ne_critical _ _ _ hper)
    · subst hraw
      have hmain := update_critical_since _ period now hnow ih.1
      exact ⟨fun _ => hmain, fun _ => hmain.2⟩

/-- Witness for C3 (amended) at the initial state. -/
theorem c3_since_invariant_witness :
    (initialStatusState.criticalSince ≠ 0 →
        initialStatusState.warningSince ≠ 0 ∧
          initialStatusState.warningSince ≤ initialStatusState.criticalSince) ∧
      (initialStatusState.currentStatus = Status.critical →
        initialStatusState.warningSince ≤ initialStatusState.criticalSince) :=
  c3_since_invariant initialStatusState ReachableState.init

lemma fval_lt_trans {a b c : FVal} (hab : FVal.lt a b = true) (hbc : FVal.lt b c = true) :
    FVal.lt a c = true := by
  cases a <;> cases b <;> cases c <;> simp_all [FVal.lt]
  linarith

/-- C4 counterexample: for the threshold `(lowCritical = NaN, lowWarning = 10,
highWarning = NaN, highCritical = 0)` and value `5`, the code returns
`warning` (the `lowWarning` check runs before `highCritical`) while the claim,
as stated, demands `critical` because `5 > highCritical = 0`. -/
theorem c4_raw_status_counterexample :
    (Threshold.currentStatus
        { lowCritical := FVal.nan, lowWarning := FVal.val 10,
          highWarning := FVal.nan, highCritical := FVal.val 0 }
        (FVal.val 5)).1
      ≠ specRawStatus
        { lowCritical := FVal.nan, lowWarning := FVal.val 10,
          highWarning := FVal.nan, highCritical := FVal.val 0 }
        (FVal.val 5) := by
  decide

/-- C4 (amended): whenever the configured limits are consistent — `lowWarning`
does not exceed `highCritical` (in particular whenever either of the two is
unset) — the code's raw status agrees with the claim's description: critical if
`value < lowCritical` or `value > highCritical`, else warning if
`value < lowWarning` or `value > highWarning`, else ok, with NaN limits never
matching.  In general the code checks in source order `lowCritical`,
`lowWarning`, `highCritical`, `highWarning`. -/
theorem c4_raw_status (t : Threshold) (value : FVal)
    (hconsistent : FVal.lt t.highCritical t.lowWarning = false) :
    (t.currentStatus value).1 = specRawStatus t value := by
  unfold Threshold.currentStatus specRawStatus
  cases h1 : FVal.lt value t.lowCritical <;>
    cases h2 : FVal.lt value t.lowWarning <;>
      cases h3 : FVal.lt t.highCritical value <;>
        cases h4 : FVal.lt t.highWarning value <;>
          simp [h1, h2, h3, h4]
  all_goals exact absurd (fval_lt_trans h3 h2) (by simp [hconsistent])

/-- Witness for C4 at the threshold `(0, 2, 8, 10)` and value `5`. -/
theorem c4_raw_status_witness :
    FVal.lt (FVal.val 10) (FVal.val 2) = false ∧
      (Threshold.currentStatus
          { lowCritical := FVal.val 0, lowWarning := FVal.val 2,
            highWarning := FVal.val 8, highCritical := FVal.val 10 }
          (FVal.val 5)).1
        = specRawStatus
          { lowCritical := FVal.val 0, lowWarning := FVal.val 2,
            highWarning := FVal.val 8, highCritical := FVal.val 10 }
          (FVal.val 5) :=
  ⟨by decide, c4_raw_status _ _ (by decide)⟩

lemma observeService_ne (m : nameContainer → Option Service) (service : Service)
    (k : nameContainer) (h : service.key ≠ k) : observeService m service k = m k := by
  simp only [observeService]
  exact Function.update_noteq (Ne.symm h) _ _

lemma updateDiscovery_fold_skip (r : List Service) (m : nameContainer → Option Service)
    (k : nameContainer) (hk : ∀ x ∈ r, x.key ≠ k) :
    r.foldl observeService m k = m k := by
  induction r generalizing m with
  | nil => rfl
  | cons a rest ih =>
      rw [List.foldl_cons, ih _ (fun x hx => hk x (List.mem_cons_of_mem _ hx))]
      exact observeService_ne m a k (hk a (List.mem_cons_self _ _))

/-- C2: during a discovery refresh, an observed service whose key had a
previous entry with netstat info, while the observation lacks it, is written
back with the previous listen addresses, primary IP and `hasNetstatInfo` flag;
every other observed service is written back exactly as the dynamic discoverer
returned it.  (The observed services are assumed to carry distinct keys, as a
Go map iteration yields.) -/
theorem c2_discovery_carry_over (prev : nameContainer → Option Service) (r : List Service)
    (s : Service) (hmem : s ∈ r) (hnodup : (r.map Service.key).Nodup) :
    updateDiscovery prev r s.key =
      some (match prev s.key with
        | some p =>
            if p.hasNetstatInfo ∧ ¬ s.hasNetstatInfo then
              { s with
                  listenAddresses := p.listenAddresses
                  ipAddress := p.ipAddress
                  hasNetstatInfo := p.hasNetstatInfo }
            else s
        | none => s) := by
  obtain ⟨r1, r2, rfl⟩ := List.append_of_mem hmem
  rw [List.map_append, List.map_cons] at hnodup
  rw [List.nodup_append] at hnodup
  obtain ⟨hn1, hn2, hdisj⟩ := hnodup
  have hk2 : s.key ∉ r2.map Service.key := (List.nodup_cons.mp hn2).1
  have hk1 : s.key ∉ r1.map Service.key := fun hx => hdisj hx (List.mem_cons_self _ _)
  unfold updateDiscovery
  rw [List.foldl_append, List.foldl_cons]
  rw [updateDiscovery_fold_skip r2 _ s.key
    (fun x hx hxk => hk2 (hxk ▸ List.mem_map_of_mem Service.key hx))]
  have hbase : (r1.foldl observeService (deactivateAll prev)) s.key
      = deactivateAll prev s.key :=
    updateDiscovery_fold_skip r1 _ s.key
      (fun x hx hxk => hk1 (hxk ▸ List.mem_map_of_mem Service.key hx))
  simp only [observeService, hbase, deactivateAll, Function.update_same]
  cases hprev : prev s.key with
  | none => simp
  | some p =>
      simp only [Option.map_some]
      by_cases hp : p.hasNetstatInfo <;> by_cases hsn : s.hasNetstatInfo <;>
        simp [mergeObservedService, hp, hsn]

/-- Witness for C2: a `memcached` service observed without netstat info keeps
the addresses, IP and flag of the previous cycle's entry. -/
theorem c2_discovery_carry_over_witness :
    updateDiscovery memcachedPrevMap [memcachedObservedService] memcachedObservedService.key =
      some (match memcachedPrevMap memcachedObservedService.key with
        | some p =>
            if p.hasNetstatInfo ∧ ¬ memcachedObservedService.hasNetstatInfo then
              { memcachedObservedService with
                  listenAddresses := p.listenAddresses
                  ipAddress := p.ipAddress
                  hasNetstatInfo := p.hasNetstatInfo }
            else memcachedObservedService
        | none => memcachedObservedService) :=
  c2_discovery_carry_over _ _ _ (List.mem_singleton.mpr rfl) (by simp)

/-- C8 counterexample: the exported `Disable` is not monotonic — from a state
disabled until 100 it moves the deadline back to 50, because `Disable` always
calls the internal `disable` with `force = true`. -/
theorem c8_disable_counterexample :
    ¬ (∀ (s : Synchronizer) (untilT : Nat) (reason : DisableReason),
        s.disabledUntil ≤ (s.Disable untilT reason).disabledUntil) := by
  intro h
  have := h { disabledUntil := 100, disableReason := DisableReason.maintenance } 50
    DisableReason.maintenance
  simp [Synchronizer.Disable, Synchronizer.disable] at this

/-- C8 (amended): the internal `disable` is monotonic when `force` is false —
the deadline becomes the maximum of the stored and requested deadlines — while
the exported `Disable` always passes `force = true` and therefore overwrites
the pair unconditionally. -/
theorem c8_disable_monotonic (s : Synchronizer) (untilT : Nat) (reason : DisableReason) :
    s.disabledUntil ≤ (s.disable untilT reason false).disabledUntil
    ∧ (s.disable untilT reason false).disabledUntil = max s.disabledUntil untilT
    ∧ s.Disable untilT reason = s.disable untilT reason true
    ∧ s.disable untilT reason true
        = { disabledUntil := untilT, disableReason := reason } := by
  refine ⟨?_, ?_, rfl, by simp [Synchronizer.disable]⟩ <;>
    · simp only [Synchronizer.disable]
      split_ifs <;> simp_all
      all_goals omega

/-- C9 counterexample: the password alphabet written in the source has 55
pairwise-distinct characters (lowercase minus `i l o`, uppercase minus `I O`,
digits `2-9`), not 54 as claimed. -/
theorem c9_alphabet_counterexample :
    passwordLetters.Nodup ∧ passwordLetters.length = 55 ∧ passwordLetters.length ≠ 54 := by
  decide

lemma passwordRunes_all_some (draws : Nat → Option (Fin passwordLetters.length)) :
    ∀ l : List Nat, (∀ i ∈ l, (draws i).isSome = true) →
      ∃ cs, passwordRunes l draws = some cs ∧ cs.length = l.length ∧
        ∀ c ∈ cs, c ∈ passwordLetters := by
  intro l
  induction l with
  | nil =>
      intro _
      exact ⟨[], rfl, rfl, by simp⟩
  | cons i rest ih =>
      intro h
      obtain ⟨n, hn⟩ := Option.isSome_iff_exists.mp (h i (List.mem_cons_self _ _))
      obtain ⟨cs, hcs, hlen, hmem⟩ := ih (fun j hj => h j (List.mem_cons_of_mem _ hj))
      refine ⟨passwordLetters.get n :: cs, by simp [passwordRunes, hn, hcs], by simp [hlen], ?_⟩
      intro c hc
      rcases List.mem_cons.mp hc with rfl | hc2
      · exact List.get_mem _ _ _
      · exact hmem c hc2

lemma passwordRunes_failure (draws : Nat → Option (Fin passwordLetters.length)) :
    ∀ (l : List Nat) (i : Nat), i ∈ l → draws i = none → passwordRunes l draws = none := by
  intro l
  induction l with
  | nil =>
      intro i hi _
      exact absurd hi (List.not_mem_nil _)
  | cons j rest ih =>
      intro i hi hnone
      rcases List.mem_cons.mp hi with rfl | hi2
      · simp [passwordRunes, hnone]
      · cases hj : draws j
        · simp [passwordRunes, hj]
        · simp [passwordRunes, hj, ih i hi2 hnone]

/-- C9 (amended): when every entropy draw succeeds, `generatePassword 10`
returns a string of exactly 10 characters, each drawn from the source's
55-character alphabet; when any of the 10 draws hits an entropy failure the
call panics (`crypto/rand.Int` returns a nil `*big.Int`, dereferenced before
the `err` check), so the `rand.Intn` fallback is unreachable dead code and
nothing is logged. -/
theorem c9_generate_password :
    (∀ draws : Nat → Option (Fin passwordLetters.length),
        (∀ i < 10, (draws i).isSome = true) →
        ∃ pw, generatePassword 10 draws = some pw ∧ pw.length = 10 ∧
          ∀ c ∈ pw.toList, c ∈ passwordLetters)
    ∧ (∀ (draws : Nat → Option (Fin passwordLetters.length)) (i : Nat),
        i < 10 → draws i = none → generatePassword 10 draws = none) := by
  constructor
  · intro draws h
    obtain ⟨cs, hcs, hlen, hmem⟩ := passwordRunes_all_some draws (List.range 10)
      (fun i hi => h i (List.mem_range.mp hi))
    refine ⟨String.mk cs, ?_, ?_, ?_⟩
    · simp [generatePassword, hcs]
    · simpa using hlen
    · simpa using hmem
  · intro draws i hi hnone
    have := passwordRunes_failure draws (List.range 10) i (List.mem_range.mpr hi) hnone
    simp [generatePassword, this]

/-- Witness for C9 (amended): constant successful draw 0 yields a 10-letter
password; a failing first draw yields the panic value. -/
theorem c9_generate_password_witness :
    (∃ pw, generatePassword 10 (fun _ => some ⟨0, by decide⟩) = some pw ∧ pw.length = 10 ∧
        ∀ c ∈ pw.toList, c ∈ passwordLetters)
    ∧ generatePassword 10 (fun _ => none) = none :=
  ⟨c9_generate_password.1 _ (fun _ _ => rfl), c9_generate_password.2 _ 0 (by norm_num) rfl⟩

lemma foldl_update_skip {α β : Type} [DecidableEq α] (l : List (α × β)) (m : α → Option β)
    (k : α) (hk : ∀ x ∈ l, x.1 ≠ k) :
    l.foldl (fun (m : α → Option β) (kv : α × β) => Function.update m kv.1 (some kv.2)) m k
      = m k := by
  induction l generalizing m with
  | nil => rfl
  | cons a rest ih =>
      rw [List.foldl_cons, ih _ (fun x hx => hk x (List.mem_cons_of_mem _ hx))]
      exact Function.update_noteq (Ne.symm (hk a (List.mem_cons_self _ _))) _ _

lemma foldl_update_lookup {α β : Type} [DecidableEq α] (l : List (α × β)) (m : α → Option β)
    (kv : α × β) (hmem : kv ∈ l) (hnodup : (l.map Prod.fst).Nodup) :
    l.foldl (fun (m : α → Option β) (kv : α × β) => Function.update m kv.1 (some kv.2)) m kv.1
      = some kv.2 := by
  obtain ⟨l1, l2, rfl⟩ := List.append_of_mem hmem
  rw [List.map_append, List.map_cons, List.nodup_append] at hnodup
  obtain ⟨_, hn2, hdisj⟩ := hnodup
  have hk2 : kv.1 ∉ l2.map Prod.fst := (List.nodup_cons.mp hn2).1
  rw [List.foldl_append, List.foldl_cons]
  rw [foldl_update_skip l2 _ kv.1
    (fun x hx hxk => hk2 (hxk ▸ List.mem_map_of_mem Prod.fst hx))]
  exact Function.update_same _ _ _

/-- C10: `New` applies the persisted status-state list to the in-memory map
only when `state.Get` returns a non-nil error; on an error-free load the
registry starts with an empty map, discarding previously persisted states. -/
theorem c10_registry_new :
    (∀ (jsonList : List (MetricNameItem × StatusState)) (k : MetricNameItem),
        registryNew none jsonList k = none)
    ∧ (∀ (e : String) (jsonList : List (MetricNameItem × StatusState))
        (kv : MetricNameItem × StatusState), kv ∈ jsonList →
        (jsonList.map Prod.fst).Nodup →
        registryNew (some e) jsonList kv.1 = some kv.2) := by
  constructor
  · intro jsonList k
    rfl
  · intro e jsonList kv hmem hnodup
    simp only [registryNew, Option.isSome_some, if_true]
    exact foldl_update_lookup jsonList _ kv hmem hnodup

/-- Witness for C10: an error-free load yields an empty map; a failed load
applies the list. -/
theorem c10_registry_new_witness :
    registryNew none [(⟨"cpu_used", ""⟩, initialStatusState)] ⟨"cpu_used", ""⟩ = none
    ∧ registryNew (some "read error") [(⟨"cpu_used", ""⟩, initialStatusState)] ⟨"cpu_used", ""⟩
        = some initialStatusState :=
  ⟨c10_registry_new.1 _ _,
   c10_registry_new.2 "read error" _ (⟨"cpu_used", ""⟩, initialStatusState)
     (List.mem_singleton.mpr rfl) (by simp)⟩

/-- C6 counterexample: two one-minute wake-ups (at 60 s and 120 s after a save
at time 0) produce no `state.Set` call at all — the loop does not serialize
every minute. -/
theorem c6_save_every_minute_counterexample :
    registryRunLoop [(false, 60), (false, 120)]
        [(⟨"cpu_used", ""⟩,
          { currentStatus := Status.ok, criticalSince := 0, warningSince := 0,
            lastUpdate := 30 })] 0
      = [] := by decide

/-- C6 (amended): the `Run` loop wakes every minute; a wake-up serializes iff
it is the shutdown wake-up or more than 60 minutes passed since the last save;
a shutdown wake-up always serializes the evicted map under the fixed cache
key; and every serialized list excludes (and the map drops) entries whose
`LastUpdate` is more than 60 minutes older than the serialization time. -/
theorem c6_registry_run_save :
    (∀ (sd : Bool) (now : Nat) (states : List (MetricNameItem × StatusState)) (lastSave : Nat),
        registryRunLoop [(sd, now)] states lastSave ≠ []
          ↔ (sd = true ∨ 3600 < now - lastSave))
    ∧ (∀ (now : Nat) (states : List (MetricNameItem × StatusState)) (lastSave : Nat),
        registryRunLoop [(true, now)] states lastSave
          = [(now, statusCacheKey,
              states.filter (fun kv => !(decide (3600 < now - kv.2.lastUpdate))))])
    ∧ (∀ (trace : List (Bool × Nat)) (states : List (MetricNameItem × StatusState))
        (lastSave t : Nat) (k : String) (l : List (MetricNameItem × StatusState)),
        (t, k, l) ∈ registryRunLoop trace states lastSave →
          k = statusCacheKey ∧ ∀ kv ∈ l, ¬ (3600 < t - kv.2.lastUpdate)) := by
  refine ⟨?_, ?_, ?_⟩
  · intro sd now states lastSave
    cases sd
    · by_cases hc : 3600 < now - lastSave <;> simp [registryRunLoop, hc]
    · simp [registryRunLoop]
  · intro now states lastSave
    simp [registryRunLoop]
  · intro trace
    induction trace with
    | nil =>
        intro states lastSave t k l h
        exact absurd h (List.not_mem_nil _)
    | cons head rest ih =>
        obtain ⟨sd, now⟩ := head
        intro states lastSave t k l h
        have hhead : (t, k, l) = ((now, statusCacheKey,
              states.filter (fun kv => !(decide (3600 < now - kv.2.lastUpdate)))) :
                Nat × String × List (MetricNameItem × StatusState)) →
            k = statusCacheKey ∧ ∀ kv ∈ l, ¬ (3600 < t - kv.2.lastUpdate) := by
          intro heq
          have ht : t = now := congrArg Prod.fst heq
          have hk : k = statusCacheKey := congrArg (fun p => p.2.1) heq
          have hl : l = states.filter (fun kv => !(decide (3600 < now - kv.2.lastUpdate))) :=
            congrArg (fun p => p.2.2) heq
          subst ht
          refine ⟨hk, ?_⟩
          intro kv hkv
          rw [hl] at hkv
          simpa using List.of_mem_filter hkv
        simp only [registryRunLoop] at h
        split_ifs at h with hsave hsd hsd
        · rcases List.mem_cons.mp h with heq | htail
          · exact hhead heq
          · exact absurd htail (List.not_mem_nil _)
        · rcases List.mem_cons.mp h with heq | htail
          · exact hhead heq
          · exact ih _ _ _ _ _ htail
        · exact absurd h (List.not_mem_nil _)
        · exact ih _ _ _ _ _ h

/-- Witness for C6 (amended): the shutdown wake-up at time 10 of an empty map
logs one `Set` call under the fixed cache key. -/
theorem c6_registry_run_save_witness :
    statusCacheKey = statusCacheKey ∧
      ∀ kv ∈ ([] : List (MetricNameItem × StatusState)), ¬ (3600 < 10 - kv.2.lastUpdate) :=
  c6_registry_run_save.2.2 [(true, 10)] [] 0 10 statusCacheKey [] (by decide)

lemma nodup_keys_eq {α β : Type} [DecidableEq α] {l : List (α × β)}
    (h : (l.map Prod.fst).Nodup) {k : α} {b b' : β}
    (h1 : (k, b) ∈ l) (h2 : (k, b') ∈ l) : b = b' := by
  induction l with
  | nil => exact absurd h1 (List.not_mem_nil _)
  | cons a rest ih =>
      rw [List.map_cons, List.nodup_cons] at h
      rcases List.mem_cons.mp h1 with e1 | m1 <;> rcases List.mem_cons.mp h2 with e2 | m2
      · exact congrArg Prod.snd (e1.trans e2.symm)
      · have ha : a.1 = k := by rw [← e1]
        exact absurd (by rw [ha]; exact List.mem_map_of_mem Prod.fst m2) h.1
      · have ha : a.1 = k := by rw [← e2]
        exact absurd (by rw [ha]; exact List.mem_map_of_mem Prod.fst m1) h.1
      · exact ih h.2 m1 m2

lemma mem_upsertPoint (l : List (String × MetricPoint × Nat)) (k : String) (p : MetricPoint)
    (e : Nat) : (k, p, e) ∈ upsertPoint l k p e := by
  unfold upsertPoint
  split_ifs with h
  · obtain ⟨kv, hkv, hk⟩ := List.any_eq_true.mp h
    refine List.mem_map.mpr ⟨kv, hkv, ?_⟩
    simp [of_decide_eq_true hk]
  · exact List.mem_append_right _ (List.mem_singleton.mpr rfl)

/-- C7: a pushed point is stored under its label-set text with expiration
`now + ttl`; the push sweeps expired entries exactly when more than 5 minutes
passed since the last cleanup (and otherwise leaves the stored entries as the
pure insertion result); and a `Gather` after an entry's expiration has passed
neither returns that point nor keeps any entry under its key. -/
theorem c7_pushed_point_ttl :
    (∀ (st : RegistryPushState) (p : MetricPoint) (ttl now : Nat),
        (labelsToText p.labels, p, now + ttl) ∈ (pushPoint st [p] ttl now).pushedPoints)
    ∧ (∀ (st : RegistryPushState) (pts : List MetricPoint) (ttl now : Nat),
        (300 < now - st.lastPushedPointsCleanup →
          (pushPoint st pts ttl now).lastPushedPointsCleanup = now ∧
            ∀ kv ∈ (pushPoint st pts ttl now).pushedPoints, ¬ (kv.2.2 < now))
        ∧ (¬ 300 < now - st.lastPushedPointsCleanup →
          (pushPoint st pts ttl now).lastPushedPointsCleanup = st.lastPushedPointsCleanup
          ∧ (pushPoint st pts ttl now).pushedPoints
              = pts.foldl (fun acc p => upsertPoint acc (labelsToText p.labels) p (now + ttl))
                  st.pushedPoints))
    ∧ (∀ (st : RegistryPushState) (k : String) (q : MetricPoint) (e gnow : Nat),
        (st.pushedPoints.map Prod.fst).Nodup →
        (∀ kv ∈ st.pushedPoints, kv.1 = labelsToText kv.2.1.labels) →
        (k, q, e) ∈ st.pushedPoints → e < gnow →
          q ∉ (pushCollect st gnow).1
          ∧ ∀ kv ∈ (pushCollect st gnow).2.pushedPoints, kv.1 ≠ k) := by
  refine ⟨?_, ?_, ?_⟩
  · intro st p ttl now
    have hmem := mem_upsertPoint st.pushedPoints (labelsToText p.labels) p (now + ttl)
    unfold pushPoint
    split_ifs with h
    · refine List.mem_filter.mpr ⟨by simpa using hmem, ?_⟩
      simp
    · simpa using hmem
  · intro st pts ttl now
    constructor
    · intro h
      unfold pushPoint
      rw [if_pos h]
      refine ⟨rfl, ?_⟩
      intro kv hkv
      simpa using List.of_mem_filter hkv
    · intro h
      unfold pushPoint
      rw [if_neg h]
      exact ⟨rfl, rfl⟩
  · intro st k q e gnow hnodup hwf hmem hexp
    have hkey : k = labelsToText q.labels := hwf (k, q, e) hmem
    constructor
    · intro hq
      obtain ⟨kv, hkvf, hkvq⟩ := List.mem_map.mp hq
      have hkvmem : kv ∈ st.pushedPoints := List.mem_of_mem_filter hkvf
      have hkvpred := List.of_mem_filter hkvf
      have hkvkey : kv.1 = k := by
        rw [hwf kv hkvmem, hkvq, hkey]
      have hkv1 : (k, kv.2) ∈ st.pushedPoints := hkvkey ▸ hkvmem
      have : kv.2 = (q, e) := nodup_keys_eq hnodup hkv1 hmem
      rw [this] at hkvpred
      simp at hkvpred
      omega
    · intro kv hkvf hkvkey
      have hkvmem : kv ∈ st.pushedPoints := List.mem_of_mem_filter hkvf
      have hkvpred := List.of_mem_filter hkvf
      have hkv1 : (k, kv.2) ∈ st.pushedPoints := hkvkey ▸ hkvmem
      have : kv.2 = (q, e) := nodup_keys_eq hnodup hkv1 hmem
      rw [this] at hkvpred
      simp at hkvpred
      omega

/-- Witness for C7 at a one-entry store whose point expired at 5, gathered at
time 6. -/
theorem c7_pushed_point_ttl_witness :
    { labels := [("x", "1")], time := 0, value := 0 }
        ∉ (pushCollect
            { pushedPoints := [("x=1", { labels := [("x", "1")], time := 0, value := 0 }, 5)]
              lastPushedPointsCleanup := 0 } 6).1
    ∧ ∀ kv ∈ (pushCollect
            { pushedPoints := [("x=1", { labels := [("x", "1")], time := 0, value := 0 }, 5)]
              lastPushedPointsCleanup := 0 } 6).2.pushedPoints, kv.1 ≠ "x=1" :=
  c7_pushed_point_ttl.2.2 _ "x=1" { labels := [("x", "1")], time := 0, value := 0 } 5 6
    (by simp) (by decide) (by simp) (by norm_num)

lemma addAddressLoop_spec (na : listenAddress) :
    ∀ (l : List listenAddress) (dup : Bool) (l' : List listenAddress),
      addAddressLoop l na = some (dup, l') →
      (dup = false → l' = l ∧ ∀ u ∈ l, u.network = na.network → u.port ≠ na.port)
      ∧ (dup = true → ∃ l₁ v l₂, l = l₁ ++ v :: l₂
          ∧ l' = l₁ ++ (if na.address.startsWith "127." then na else v) :: l₂
          ∧ v.network = na.network ∧ v.port = na.port
          ∧ ∀ u ∈ l₁, u.network = na.network → u.port ≠ na.port) := by
  intro l
  induction l with
  | nil =>
      intro dup l' h
      simp only [addAddressLoop, Option.some.injEq, Prod.mk.injEq] at h
      obtain ⟨hdup, hl'⟩ := h
      subst hdup
      subst hl'
      exact ⟨fun _ => ⟨rfl, by simp⟩, fun htrue => by simp at htrue⟩
  | cons v rest ih =>
      intro dup l' h
      simp only [addAddressLoop] at h
      by_cases hnet : v.network ≠ na.network
      · rw [if_pos hnet] at h
        obtain ⟨⟨d, t⟩, hrec, heq⟩ := Option.map_eq_some'.mp h
        have hd : dup = d := (congrArg Prod.fst heq).symm
        have hlt : l' = v :: t := (congrArg Prod.snd heq).symm
        rw [hd, hlt]
        refine ⟨?_, ?_⟩
        · intro hfalse
          obtain ⟨ht, hports⟩ := (ih d t hrec).1 hfalse
          subst ht
          refine ⟨rfl, ?_⟩
          intro u hu
          rcases List.mem_cons.mp hu with rfl | hu2
          · intro habs
            exact absurd habs hnet
          · exact hports u hu2
        · intro htrue
          obtain ⟨l₁, w, l₂, hs2, ht, hwnet, hwport, hl₁⟩ := (ih d t hrec).2 htrue
          refine ⟨v :: l₁, w, l₂, by simp [hs2], by simp [ht], hwnet, hwport, ?_⟩
          intro u hu
          rcases List.mem_cons.mp hu with rfl | hu2
          · intro habs
            exact absurd habs hnet
          · exact hl₁ u hu2
      · rw [if_neg hnet] at h
        by_cases hsplit : splitHostPortFails v.address = true
        · rw [if_pos hsplit] at h
          exact absurd h (by simp)
        · rw [if_neg hsplit] at h
          by_cases hport : v.port = na.port
          · rw [if_pos hport] at h
            have h2 := Option.some.inj h
            have hd : dup = true := (congrArg Prod.fst h2).symm
            have hlt : l' = (if na.address.startsWith "127." then na else v) :: rest :=
              (congrArg Prod.snd h2).symm
            subst hd
            subst hlt
            refine ⟨fun hfalse => by simp at hfalse, fun _ => ?_⟩
            exact ⟨[], v, rest, rfl, rfl, not_not.mp hnet, hport,
              fun u hu => absurd hu (List.not_mem_nil _)⟩
          · rw [if_neg hport] at h
            obtain ⟨⟨d, t⟩, hrec, heq⟩ := Option.map_eq_some'.mp h
            have hd : dup = d := (congrArg Prod.fst heq).symm
            have hlt : l' = v :: t := (congrArg Prod.snd heq).symm
            rw [hd, hlt]
            refine ⟨?_, ?_⟩
            · intro hfalse
              obtain ⟨ht, hports⟩ := (ih d t hrec).1 hfalse
              subst ht
              refine ⟨rfl, ?_⟩
              intro u hu
              rcases List.mem_cons.mp hu with rfl | hu2
              · intro _
                exact hport
              · exact hports u hu2
            · intro htrue
              obtain ⟨l₁, w, l₂, hs2, ht, hwnet, hwport, hl₁⟩ := (ih d t hrec).2 htrue
              refine ⟨v :: l₁, w, l₂, by simp [hs2], by simp [ht], hwnet, hwport, ?_⟩
              intro u hu
              rcases List.mem_cons.mp hu with rfl | hu2
              · intro _
                exact hport
              · exact hl₁ u hu2

lemma noDupNonUnix_replace (l₁ l₂ : List listenAddress) (v x : listenAddress)
    (hnet : x.network = v.network) (hport : x.port = v.port)
    (h : noDupNonUnix (l₁ ++ v :: l₂)) : noDupNonUnix (l₁ ++ x :: l₂) := by
  unfold noDupNonUnix at h ⊢
  rw [List.pairwise_append] at h ⊢
  obtain ⟨h1, h2, h3⟩ := h
  obtain ⟨h2v, h2rest⟩ := List.pairwise_cons.mp h2
  refine ⟨h1, ?_, ?_⟩
  · rw [List.pairwise_cons]
    refine ⟨?_, h2rest⟩
    intro w hw hxw hxu
    rw [hport]
    exact h2v w hw (by rw [← hnet]; exact hxw) (by rw [← hnet]; exact hxu)
  · intro u hu y hy
    rcases List.mem_cons.mp hy with rfl | hy2
    · intro huy huu
      rw [hport]
      exact h3 u hu v (List.mem_cons_self _ _) (huy.trans hnet) huu
    · exact h3 u hu y (List.mem_cons_of_mem _ hy2)

lemma addAddress_preserves (l : List listenAddress) (a : listenAddress)
    (ih : noDupNonUnix l) : noDupNonUnix (addAddress l a) := by
  unfold addAddress
  split_ifs with hunix
  · unfold noDupNonUnix at ih ⊢
    rw [List.pairwise_append]
    refine ⟨ih, List.pairwise_singleton _ _, ?_⟩
    intro x hx y hy
    rw [List.mem_singleton] at hy
    subst hy
    intro hxy hxu
    exact absurd (hxy.trans hunix) hxu
  · rcases hproj : projectAddress a with _ | na
    · simp only [hproj]
      exact ih
    · simp only [hproj]
      rcases hloop : addAddressLoop l na with _ | ⟨dup, lres⟩
      · simp only [hloop]
        exact ih
      · cases dup
        · simp only [hloop]
          obtain ⟨_, hports⟩ := (addAddressLoop_spec na l false lres hloop).1 rfl
          unfold noDupNonUnix at ih ⊢
          rw [List.pairwise_append]
          refine ⟨ih, List.pairwise_singleton _ _, ?_⟩
          intro x hx y hy
          rw [List.mem_singleton] at hy
          subst hy
          intro hxy _
          exact hports x hx hxy
        · simp only [hloop]
          obtain ⟨l₁, v, l₂, hl, hlres, hvnet, hvport, _⟩ :=
            (addAddressLoop_spec na l true lres hloop).2 rfl
          subst hl
          subst hlres
          by_cases hstart : na.address.startsWith "127." = true
          · rw [if_pos hstart]
            exact noDupNonUnix_replace l₁ l₂ v na hvnet.symm hvport.symm ih
          · rw [if_neg hstart]
            exact ih

/-- C5 counterexample: two unix sockets of the same PID both survive
`addAddress` while sharing `(network, port) = (unix, 0)` — the claimed
"no two addresses share (network, port)" invariant fails for unix sockets,
which skip deduplication entirely. -/
theorem c5_netstat_dedup_counterexample :
    ¬ ((addAddress (addAddress [] { network := "unix", address := "/run/a.sock", port := 0 })
          { network := "unix", address := "/run/b.sock", port := 0 }).Pairwise
        (fun a b => ¬ (a.network = b.network ∧ a.port = b.port))) := by
  decide

/-- C5 (amended): for every per-PID address list built by `addAddress`
insertions, no two non-unix addresses share `(network, port)` (unix-socket
entries all carry port 0 and are all kept); and when a projected tcp/udp
address collides on `(network, port)` with a stored entry — the scan reaching
it cleanly — the stored entry is replaced exactly when the new address starts
with `127.`, so a `127.`-prefixed candidate always survives. -/
theorem c5_netstat_dedup :
    (∀ l, NetstatReachable l → noDupNonUnix l)
    ∧ (∀ (l₁ l₂ : List listenAddress) (v na : listenAddress),
        (na.network = "tcp" ∨ na.network = "udp") →
        (∀ u ∈ l₁, u.network = na.network →
          splitHostPortFails u.address = false ∧ u.port ≠ na.port) →
        v.network = na.network → splitHostPortFails v.address = false → v.port = na.port →
        addAddress (l₁ ++ v :: l₂) na
          = l₁ ++ (if na.address.startsWith "127." then na else v) :: l₂) := by
  constructor
  · intro l h
    induction h with
    | nil => exact List.Pairwise.nil
    | step l a _ ih => exact addAddress_preserves l a ih
  · intro l₁ l₂ v na hna hl₁ hvnet hvsplit hvport
    have hloop : ∀ l₁' : List listenAddress,
        (∀ u ∈ l₁', u.network = na.network →
          splitHostPortFails u.address = false ∧ u.port ≠ na.port) →
        addAddressLoop (l₁' ++ v :: l₂) na
          = some (true, l₁' ++ (if na.address.startsWith "127." then na else v) :: l₂) := by
      intro l₁'
      induction l₁' with
      | nil =>
          intro _
          simp only [List.nil_append, addAddressLoop]
          rw [if_neg (by simp [hvnet]), if_neg (by simp [hvsplit]), if_pos hvport]
      | cons u rest ih =>
          intro hu
          have hrec := ih (fun w hw => hu w (List.mem_cons_of_mem _ hw))
          by_cases hun : u.network = na.network
          · obtain ⟨husplit, huport⟩ := hu u (List.mem_cons_self _ _) hun
            simp only [List.cons_append, addAddressLoop, List.append_eq]
            rw [if_neg (by simp [hun]), if_neg (by simp [husplit]), if_neg huport, hrec]
            rfl
          · simp only [List.cons_append, addAddressLoop, List.append_eq]
            rw [if_pos (by simpa using hun), hrec]
            rfl
    have hnotunix : ¬ (na.network = "unix") := by
      rcases hna with h | h <;> simp [h]
    have hnot6 : ¬ (na.network = "tcp6" ∨ na.network = "udp6") := by
      rcases hna with h | h <;> simp [h]
    have hproj : projectAddress na = some na := by
      unfold projectAddress
      rw [if_neg hnot6]
    unfold addAddress
    rw [if_neg hnotunix]
    simp only [hproj, hloop l₁ hl₁]

/-- Witness for C5: a reachable singleton list satisfies the invariant, and a
loopback candidate replaces the stored same-port entry. -/
theorem c5_netstat_dedup_witness :
    noDupNonUnix (addAddress [] tcpAddr80)
    ∧ addAddress ([tcpAddr80] ++ tcpAddr443 :: []) tcpLoopback443
        = [tcpAddr80] ++
            (if tcpLoopback443.address.startsWith "127." then tcpLoopback443 else tcpAddr443)
              :: [] :=
  ⟨c5_netstat_dedup.1 _ (NetstatReachable.step [] _ NetstatReachable.nil),
   c5_netstat_dedup.2 [tcpAddr80] [] tcpAddr443 tcpLoopback443 (Or.inl rfl) (by decide)
     rfl (by decide) rfl⟩

end Glouton
